import Mathlib

/-!
Shallow embedding of the power-telemetry sampler subsystem of the
`ai-telemetry-test` repository (files `llm_joulemeter.py` and
`llm_joulemeter_simple.py`): the character-at-a-time line buffer of
`IntelPowerMonitor.run`, the regex extraction of power readings, baseline
calibration, window correlation and the derived metrics of
`run_experiment` / `run_with_power_monitoring`.

All Python floats are modelled as rationals (`ℚ`); timestamps are
rationals as well.  The subprocess stream is modelled as the list of
characters the loop reads (the code reads one character per iteration via
`process.stdout.read(1)`).
-/

namespace Joulemeter

/-- Python `\s` on the ASCII range: space, tab, newline, carriage return,
vertical tab, form feed. -/
def isPySpace (c : Char) : Bool :=
  c = ' ' || c = '\t' || c = '\n' || c = '\r' || c = '\x0b' || c = '\x0c'

/-- Numeric value of a list of ASCII digit characters, most significant
first (the usual positional reading). -/
def digitsVal (ds : List Char) : ℕ :=
  ds.foldl (fun a c => 10 * a + (c.toNat - 48)) 0

/-- Value of the captured group `\d+\.?\d*`: integer digits `d1`,
fraction digits `d2`, read as `d1 + d2 / 10 ^ |d2|`.  This is what
`float(match.group(1))` computes on such a string. -/
def groupVal (d1 d2 : List Char) : ℚ :=
  (digitsVal d1 : ℚ) + (digitsVal d2 : ℚ) / (10 : ℚ) ^ d2.length

/-- Match `\s+(\d+\.?\d*)\s*W` as a prefix of `cs` and return the value of
the captured group.  Backtracking is not needed: the maximal whitespace
run, maximal digit runs and maximal trailing whitespace are the only
candidates that can be followed by the required next character class
(argued case by case from the character classes being disjoint). -/
def matchTail (cs : List Char) : Option ℚ :=
  let ws := cs.span isPySpace
  if ws.1 = [] then none
  else
    let ds := ws.2.span Char.isDigit
    if ds.1 = [] then none
    else
      match ds.2 with
      | '.' :: r2 =>
          let fs := r2.span Char.isDigit
          let tl := fs.2.span isPySpace
          match tl.2 with
          | 'W' :: _ => some (groupVal ds.1 fs.1)
          | _ => none
      | rest =>
          let tl := rest.span isPySpace
          match tl.2 with
          | 'W' :: _ => some (groupVal ds.1 [])
          | _ => none

/-- The lazy `.*?:` followed by the tail: scan forward for the nearest
colon whose tail matches; `.` does not cross a newline.  On failure at a
colon the lazy star extends past it (the colon itself is matched by `.`),
exactly re's backtracking order. -/
def scanColon : List Char → Option ℚ
  | [] => none
  | c :: rest =>
      if c = ':' then
        match matchTail rest with
        | some v => some v
        | none => scanColon rest
      else if c = '\n' then none
      else scanColon rest

/-- The literal prefix of `power_pattern`:
`Intel energy model derived package power`. -/
def powerLiteral : List Char :=
  "Intel energy model derived package power".data

/-- re.search of
`Intel energy model derived package power.*?:\s+(\d+\.?\d*)\s*W`
over the buffer, returning the parsed value of group 1: try every start
position left to right; at a position the pattern matches iff the literal
is a prefix there and the lazy colon scan succeeds after it. -/
def searchPower : List Char → Option ℚ
  | [] => none
  | buf@(_ :: rest) =>
      if powerLiteral.isPrefixOf buf then
        match scanColon (buf.drop powerLiteral.length) with
        | some v => some v
        | none => searchPower rest
      else searchPower rest

/-- State of the reader loop of `IntelPowerMonitor.run`: the accumulation
buffer and the queue of pushed power values (push order; the wall-clock
tags of `time.time()` are carried separately where a claim needs them). -/
structure MonState where
  buffer : List Char
  queue : List ℚ
deriving DecidableEq, Repr

/-- The initial state: `buffer = ""` and an empty queue. -/
def initMonState : MonState := { buffer := [], queue := [] }

/-- One iteration of the reader loop body on one character read: append
the character to the buffer; on a newline, search the whole buffer for
the power pattern and push the parsed value on a match, then truncate the
buffer to its last 500 characters when its length exceeds 1000
(lines 64-80 of `llm_joulemeter.py`). -/
def stepChar (st : MonState) (c : Char) : MonState :=
  let buf := st.buffer ++ [c]
  if c = '\n' then
    let q :=
      match searchPower buf with
      | some v => st.queue ++ [v]
      | none => st.queue
    let buf2 := if buf.length > 1000 then buf.drop (buf.length - 500) else buf
    { buffer := buf2, queue := q }
  else
    { buffer := buf, queue := st.queue }

/-- Run the reader loop over a list of characters read from the stream. -/
def runChars (st : MonState) (cs : List Char) : MonState :=
  cs.foldl stepChar st

/-- What one iteration of the reader loop observes: either the stop event
is set at the loop head, or `process.stdout.read(1)` yields a character,
yields the empty string (end of stream), or raises (caught by the
`except Exception` handler, which prints and breaks). -/
inductive LoopEvent
  | stopSignal
  | readChar (c : Char)
  | readEOF
  | readError
deriving DecidableEq, Repr

/-- Why the reader loop exited. -/
inductive ExitReason
  | stopRequested
  | endOfStream
  | readFailure
deriving DecidableEq, Repr

/-- Final state of the whole `run` method: loop state at exit, the exit
reason, and whether `process.terminate()` (line 86) was executed before
the method returned. -/
structure RunResult where
  final : MonState
  reason : ExitReason
  terminated : Bool
deriving DecidableEq, Repr

/-- The reader loop over a trace of iteration observations: it exits at
the first stop signal, end of stream, or read error, and otherwise
processes the character read.  `none` models a trace that ends while the
loop is still waiting on the stream (the loop has not returned). -/
def readerLoop (st : MonState) : List LoopEvent → Option (MonState × ExitReason)
  | [] => none
  | .stopSignal :: _ => some (st, .stopRequested)
  | .readEOF :: _ => some (st, .endOfStream)
  | .readError :: _ => some (st, .readFailure)
  | .readChar c :: es => readerLoop (stepChar st c) es

/-- The whole `run` method body after the subprocess spawn: run the loop;
when (and only when) the loop returns, control falls through to the
single `process.terminate()` call on line 86 — there is no return or
raise between the loop and that call. -/
def runMethod (events : List LoopEvent) : Option RunResult :=
  match readerLoop initMonState events with
  | some (st, r) => some { final := st, reason := r, terminated := true }
  | none => none

/-- The floor constant of the net-power clamp: `0.1` W in
`max(0.1, avg_power_raw - monitor.baseline_watts)`. -/
def powerFloor : ℚ := 1 / 10

/-- Net power, line 172 of `llm_joulemeter.py` and line 162 of
`llm_joulemeter_simple.py`: `max(0.1, raw - baseline)`. -/
def netPower (raw baseline : ℚ) : ℚ :=
  max powerFloor (raw - baseline)

/-- Result of `calibrate_baseline` as a function of the values drained
from the queue: the baseline it stores and the queue contents it leaves
behind (the queue is cleared unconditionally after the baseline is set,
lines 107-109 of `llm_joulemeter.py`). -/
structure CalibResult where
  baselineWatts : ℚ
  queueAfter : List (ℚ × ℚ)
deriving DecidableEq, Repr

/-- `calibrate_baseline`, lines 96-109 of `llm_joulemeter.py`: average
the drained readings when there are any, otherwise fall back to the
documented 3.0 W default; then clear the queue. -/
def calibrateBaseline (readings : List ℚ) : CalibResult :=
  if readings ≠ [] then
    { baselineWatts := readings.sum / (readings.length : ℚ), queueAfter := [] }
  else
    { baselineWatts := 3, queueAfter := [] }

/-- Derived metrics of one experiment window, as computed on
lines 170-177 of `llm_joulemeter.py`. -/
structure Metrics where
  avgPowerRaw : ℚ
  avgPowerNet : ℚ
  totalEnergy : ℚ
  joulesPerToken : ℚ
  secPerToken : ℚ
deriving DecidableEq, Repr

/-- The in-window test applied to a drained sample on line 163:
`start_time <= t <= end_time`. -/
def inWindow (startT endT t : ℚ) : Bool :=
  startT ≤ t && t ≤ endT

/-- Window correlation, lines 159-177 of `llm_joulemeter.py`: keep the
drained samples whose timestamp lies in `[startT, endT]`; if none remain
the data point is skipped (`continue`, modelled as `none`); otherwise
compute the derived metrics with `elapsed = endT - startT`. -/
def correlate (samples : List (ℚ × ℚ)) (startT endT baseline tokenCount : ℚ) :
    Option Metrics :=
  let powerSamples := (samples.filter (fun s => inWindow startT endT s.1)).map Prod.snd
  if powerSamples = [] then none
  else
    let elapsed := endT - startT
    let avgPowerRaw := powerSamples.sum / (powerSamples.length : ℚ)
    let avgPowerNet := netPower avgPowerRaw baseline
    let totalEnergy := avgPowerNet * elapsed
    some { avgPowerRaw := avgPowerRaw
           avgPowerNet := avgPowerNet
           totalEnergy := totalEnergy
           joulesPerToken := if tokenCount > 0 then totalEnergy / tokenCount else 0
           secPerToken := if tokenCount > 0 then elapsed / tokenCount else 0 }

/-- `llm_joulemeter_simple.py` lines 104-111: average and maximum of the
power readings parsed from the temp file, with both set to 0 when the
list is empty. -/
def simpleAvgMax (readings : List ℚ) : ℚ × ℚ :=
  if readings ≠ [] then
    (readings.sum / (readings.length : ℚ), readings.foldr max 0)
  else
    (0, 0)

/-- `llm_joulemeter_simple.py` line 133 / line 164: per-token quotients
guarded by `if token_count > 0 else 0`. -/
def simplePerToken (amount tokenCount : ℚ) : ℚ :=
  if tokenCount > 0 then amount / tokenCount else 0

/-- `llm_joulemeter_simple.py` lines 162-163: the enrichment `main`
applies to each returned result: net power from the recorded average and
the baseline, and joules as net power times elapsed time. -/
def simpleEnrich (avgPower baseline timeS : ℚ) : ℚ × ℚ :=
  let net := netPower avgPower baseline
  (net, net * timeS)

/-- Membership of a string in the language of the captured group
`\d+\.?\d*`: one or more digits, then optionally a dot followed by zero
or more digits. -/
def groupMatches (s : List Char) : Bool :=
  let ds := s.span Char.isDigit
  ds.1 ≠ [] &&
    (ds.2 = [] ||
      (ds.2.head? = some '.' && ds.2.tail.all Char.isDigit))

/-- Python `float()` restricted to the shapes the captured group can
take (digits, optional dot, digits); `none` models a `ValueError` on any
other input. -/
def parseFloat (s : List Char) : Option ℚ :=
  let ds := s.span Char.isDigit
  if ds.1 = [] then none
  else
    match ds.2 with
    | [] => some (groupVal ds.1 [])
    | '.' :: r2 => if r2.all Char.isDigit then some (groupVal ds.1 r2) else none
    | _ => none

/-! Helper lemmas shared by the claim theorems. -/

theorem groupVal_nonneg (d1 d2 : List Char) : 0 ≤ groupVal d1 d2 := by
  unfold groupVal
  positivity

theorem runChars_cons (st : MonState) (c : Char) (cs : List Char) :
    runChars st (c :: cs) = runChars (stepChar st c) cs := by
  simp [runChars]

theorem runChars_no_newline (cs : List Char) :
    ∀ st : MonState, (∀ c ∈ cs, c ≠ '\n') →
      runChars st cs = { buffer := st.buffer ++ cs, queue := st.queue } := by
  induction cs with
  | nil => intro st _; simp [runChars]
  | cons c cs ih =>
      intro st h
      have hc : c ≠ '\n' := h c (by simp)
      rw [runChars_cons, ih _ (fun x hx => h x (by simp [hx]))]
      simp [stepChar, hc]

theorem readerLoop_chars (cs : List Char) :
    ∀ (st : MonState) (es : List LoopEvent),
      readerLoop st (cs.map LoopEvent.readChar ++ es) =
        readerLoop (runChars st cs) es := by
  induction cs with
  | nil => intro st es; simp [runChars]
  | cons c cs ih =>
      intro st es
      rw [runChars_cons]
      simpa [readerLoop] using ih (stepChar st c) es

/-! The claim theorems. -/

set_option maxRecDepth 100000 in
/-- C1.  The claim says the loop pushes exactly N samples for N matching
lines, none lost and none duplicated.  The code contradicts it: the
buffer is not cleared after a match, so a stream with the single matching
line `Intel energy model derived package power (CPUs+GT+SA): 5.0W`
followed by the non-matching line `x` pushes the 5.0 reading twice (the
stale match is found again at the second newline), and a stream with two
matching lines carrying 5.0 and 7.0 pushes 5.0 twice — the 7.0 reading
is never pushed (the stale first match shadows it). -/
theorem C1_duplication :
    (runChars initMonState
        "Intel energy model derived package power (CPUs+GT+SA): 5.0W\nx\n".data).queue
      = [5, 5] ∧
    (runChars initMonState
        ("Intel energy model derived package power (CPUs+GT+SA): 5.0W\n" ++
         "Intel energy model derived package power (CPUs+GT+SA): 7.0W\n").data).queue
      = [5, 5] := by
  have hv : groupVal ['5'] ['0'] = 5 := by
    have h1 : digitsVal ['5'] = 5 := by decide
    have h2 : digitsVal ['0'] = 0 := by decide
    norm_num [groupVal, h1, h2]
  constructor
  · have h : (runChars initMonState
        "Intel energy model derived package power (CPUs+GT+SA): 5.0W\nx\n".data).queue
        = [groupVal ['5'] ['0'], groupVal ['5'] ['0']] := rfl
    rw [h, hv]
  · have h : (runChars initMonState
        ("Intel energy model derived package power (CPUs+GT+SA): 5.0W\n" ++
         "Intel energy model derived package power (CPUs+GT+SA): 7.0W\n").data).queue
        = [groupVal ['5'] ['0'], groupVal ['5'] ['0']] := rfl
    rw [h, hv]

/-- C4.  Net power is `max(floor, raw - baseline)` with the floor the
strictly positive constant 0.1; hence net power is always at least the
floor, and equals the floor whenever raw power does not exceed the
baseline. -/
theorem C4_net_power_floor (raw baseline : ℚ) :
    netPower raw baseline = max powerFloor (raw - baseline) ∧
    0 < powerFloor ∧
    powerFloor ≤ netPower raw baseline ∧
    (raw ≤ baseline → netPower raw baseline = powerFloor) := by
  refine ⟨rfl, by norm_num [powerFloor], le_max_left _ _, fun h => ?_⟩
  have h1 : raw - baseline ≤ powerFloor := by
    have : (0 : ℚ) < powerFloor := by norm_num [powerFloor]
    linarith
  simp [netPower, max_eq_left h1]

/-- Witness for C4 at raw = 2, baseline = 3. -/
theorem C4_witness : netPower 2 3 = powerFloor :=
  (C4_net_power_floor 2 3).2.2.2 (by norm_num)

/-- C6.  Calibration over an empty drain sets the baseline to the
documented 3.0 W default (not zero, not undefined: `calibrateBaseline`
is a total function) and still clears the queue and returns normally. -/
theorem C6_default_baseline :
    calibrateBaseline [] = { baselineWatts := 3, queueAfter := [] } := rfl

/-- C7 counterexample.  The claim says processing one more character
never leaves the buffer above the 1000-character cap, for every input
stream.  False: truncation is only checked when the character read is a
newline, so 1001 non-newline characters leave the buffer at length
1001. -/
theorem C7_counterexample :
    1000 < (runChars initMonState (List.replicate 1001 'a')).buffer.length := by
  rw [runChars_no_newline _ _
    (fun c hc => by rw [List.eq_of_mem_replicate hc]; decide)]
  simp only [initMonState, List.nil_append, List.length_replicate]
  norm_num

/-- C7 amended.  Truncation is applied only when the character just
processed is a newline: after processing any newline the buffer length
is at most 1000 (truncated to its last 500 characters when it exceeded
1000), while a non-newline character always grows the buffer by exactly
one character. -/
theorem C7_truncation_on_newline (st : MonState) (c : Char) :
    (c = '\n' → (stepChar st c).buffer.length ≤ 1000) ∧
    (c ≠ '\n' → (stepChar st c).buffer = st.buffer ++ [c]) := by
  constructor
  · intro hc
    subst hc
    simp only [stepChar]
    split
    · split
      · simp only [List.length_drop]
        omega
      · rename_i h
        exact Nat.le_of_not_lt h
    · rename_i h
      simp at h
  · intro hc
    simp [stepChar, hc]

/-- Witness for C7 amended: a 1200-character buffer drops to at most
1000 on a newline. -/
theorem C7_witness :
    (stepChar { buffer := List.replicate 1200 'a', queue := [] } '\n').buffer.length
      ≤ 1000 :=
  (C7_truncation_on_newline _ '\n').1 rfl

/-- C8.  With a non-empty drain, calibration stores the arithmetic mean
of the drained values; in particular readings 3.0, 3.2, 2.8 yield a
baseline of exactly 3.0 W. -/
theorem C8_baseline_mean (readings : List ℚ) (h : readings ≠ []) :
    (calibrateBaseline readings).baselineWatts
        = readings.sum / (readings.length : ℚ) ∧
    (calibrateBaseline [3, 16/5, 14/5]).baselineWatts = 3 := by
  constructor
  · simp [calibrateBaseline, h]
  · norm_num [calibrateBaseline]

/-- Witness for C8 on the drain [3.0, 3.2, 2.8]. -/
theorem C8_witness :
    (calibrateBaseline [3, 16/5, 14/5]).baselineWatts
      = ([3, 16/5, 14/5] : List ℚ).sum / (([3, 16/5, 14/5] : List ℚ).length : ℚ) :=
  (C8_baseline_mean [3, 16/5, 14/5] (by decide)).1

theorem filter_self_idem {α : Type _} (p : α → Bool) (l : List α) :
    (l.filter p).filter p = l.filter p := by
  induction l with
  | nil => rfl
  | cons a l ih => by_cases h : p a <;> simp [List.filter_cons, h, ih]

/-- C2 counterexample.  The claim says a window with zero samples is
never given a fabricated zero or plausible-looking metric.  In
`llm_joulemeter_simple.py` an empty reading list yields recorded
averages `avg_power_w = max_power_w = 0`, and `main` still derives
`net_power_w = max(0.1, 0 - baseline) = 0.1` W and a positive energy
(1 J here over a 10 s run with baseline 4): fabricated metrics. -/
theorem C2_counterexample :
    simpleAvgMax [] = (0, 0) ∧
    simpleEnrich (simpleAvgMax []).1 4 10 = (1/10, 1) := by
  refine ⟨rfl, ?_⟩
  have hnet : netPower 0 4 = 1/10 := by
    rw [netPower, powerFloor, max_eq_left (by norm_num)]
  simp only [simpleAvgMax, simpleEnrich]
  norm_num [hnet]

/-- C2 amended.  In `llm_joulemeter.py` a window whose filtered sample
set is empty is skipped with no metrics (the `continue`, i.e. `none`);
in `llm_joulemeter_simple.py` an empty reading list records both powers
as 0 and the result is still enriched with a net power and energy
computed from that 0. -/
theorem C2_no_data_paths :
    (∀ (samples : List (ℚ × ℚ)) (startT endT b tc : ℚ),
        samples.filter (fun s => inWindow startT endT s.1) = [] →
          correlate samples startT endT b tc = none) ∧
    simpleAvgMax [] = (0, 0) ∧
    (∀ baseline timeS : ℚ,
        simpleEnrich (simpleAvgMax []).1 baseline timeS =
          (netPower 0 baseline, netPower 0 baseline * timeS)) := by
  refine ⟨?_, rfl, fun baseline timeS => rfl⟩
  intro samples startT endT b tc h
  simp [correlate, h]

/-- Witness for C2 amended: a drain whose only sample lies outside the
window is skipped. -/
theorem C2_witness : correlate [((5 : ℚ), (2 : ℚ))] 0 1 3 1 = none :=
  C2_no_data_paths.1 [(5, 2)] 0 1 3 1 (by norm_num [List.filter_cons, inWindow])

/-- C5.  Every return of the `run` method happens with the subprocess
terminated: whatever trace of loop observations is seen, if the loop
exits (stop signal, end of stream, or caught read error) then
`process.terminate()` has been executed; and each of the three exit
paths does exit the loop, for every prefix of characters read. -/
theorem C5_terminate_on_exit :
    (∀ (events : List LoopEvent) (res : RunResult),
        runMethod events = some res → res.terminated = true) ∧
    (∀ cs : List Char,
        runMethod (cs.map LoopEvent.readChar ++ [LoopEvent.stopSignal]) =
          some { final := runChars initMonState cs, reason := .stopRequested,
                 terminated := true }) ∧
    (∀ cs : List Char,
        runMethod (cs.map LoopEvent.readChar ++ [LoopEvent.readEOF]) =
          some { final := runChars initMonState cs, reason := .endOfStream,
                 terminated := true }) ∧
    (∀ cs : List Char,
        runMethod (cs.map LoopEvent.readChar ++ [LoopEvent.readError]) =
          some { final := runChars initMonState cs, reason := .readFailure,
                 terminated := true }) := by
  refine ⟨?_, ?_, ?_, ?_⟩
  · intro events res h
    rw [runMethod] at h
    cases heq : readerLoop initMonState events with
    | none => rw [heq] at h; exact absurd h (by simp)
    | some pr =>
        obtain ⟨st, r⟩ := pr
        rw [heq] at h
        rw [Option.some.injEq] at h
        rw [← h]
  all_goals
    intro cs
    rw [runMethod, readerLoop_chars cs initMonState _]
    rfl

/-- Witness for C5 on the one-event trace that reads end-of-stream. -/
theorem C5_witness :
    ({ final := initMonState, reason := .endOfStream, terminated := true } :
        RunResult).terminated = true :=
  C5_terminate_on_exit.1 [LoopEvent.readEOF] _ rfl

/-- C3.  Correlation uses exactly the drained samples with
`start ≤ t ≤ end` (dropping the other samples changes nothing), and on
the spec's scenario — window `[t0, t0+2]`, samples `(t0+0.1, 5.0)`,
`(t0+1.0, 6.0)`, `(t0+3.0, 9.0)`, baseline 3.0 — it yields raw average
11/2 = 5.5 W (third sample excluded), net 5/2 = 2.5 W, and total energy
5 J. -/
theorem C3_window_correlation (t0 tc : ℚ) :
    correlate [(t0 + 1/10, 5), (t0 + 1, 6), (t0 + 3, 9)] t0 (t0 + 2) 3 tc =
      some { avgPowerRaw := 11/2, avgPowerNet := 5/2, totalEnergy := 5,
             joulesPerToken := if tc > 0 then 5 / tc else 0,
             secPerToken := if tc > 0 then 2 / tc else 0 } ∧
    (∀ (samples : List (ℚ × ℚ)) (startT endT b tcc : ℚ),
        correlate samples startT endT b tcc =
          correlate (samples.filter (fun s => inWindow startT endT s.1))
            startT endT b tcc) := by
  constructor
  · have h1 : inWindow t0 (t0 + 2) (t0 + 1/10) = true := by
      simp only [inWindow, Bool.and_eq_true, decide_eq_true_eq]
      constructor <;> linarith
    have h2 : inWindow t0 (t0 + 2) (t0 + 1) = true := by
      simp only [inWindow, Bool.and_eq_true, decide_eq_true_eq]
      constructor <;> linarith
    have h3 : inWindow t0 (t0 + 2) (t0 + 3) = false := by
      simp only [inWindow, Bool.and_eq_false_iff, decide_eq_false_iff_not]
      right; linarith
    have helapsed : t0 + 2 - t0 = 2 := by ring
    have hnet : netPower (11/2) 3 = 5/2 := by
      rw [netPower, powerFloor, max_eq_right (by norm_num)]
      norm_num
    simp only [correlate, List.filter_cons, List.filter_nil, h1, h2, h3,
      if_true, if_false, List.map_cons, List.map_nil, List.sum_cons,
      List.sum_nil, List.length_cons, List.length_nil, helapsed]
    norm_num [hnet]
    intro hcontra
    exact absurd hcontra (by simp)
  · intro samples startT endT b tcc
    simp only [correlate, filter_self_idem]

/-- C10.  The per-token metrics guard their divisions: whenever
correlation produces metrics, the joules-per-token and
seconds-per-token fields are the respective quotients when the token
count is positive and are 0 when it is 0; the simple variant's guarded
quotient behaves the same way. -/
theorem C10_per_token_guard :
    (∀ (samples : List (ℚ × ℚ)) (startT endT b tc : ℚ) (m : Metrics),
        correlate samples startT endT b tc = some m →
          ((0 < tc → m.joulesPerToken = m.totalEnergy / tc ∧
                     m.secPerToken = (endT - startT) / tc) ∧
           (tc = 0 → m.joulesPerToken = 0 ∧ m.secPerToken = 0))) ∧
    (∀ amount : ℚ, simplePerToken amount 0 = 0) ∧
    (∀ amount tc : ℚ, 0 < tc → simplePerToken amount tc = amount / tc) := by
  refine ⟨?_, ?_, ?_⟩
  · intro samples startT endT b tc m h
    rw [correlate] at h
    split at h
    · exact absurd h (by simp)
    · rw [Option.some.injEq] at h
      rw [← h]
      constructor
      · intro htc
        simp [if_pos htc]
      · intro htc
        subst htc
        simp
  · intro amount
    simp [simplePerToken]
  · intro amount tc htc
    simp [simplePerToken, htc]

/-- Witness for C10 at token counts 0 and 2. -/
theorem C10_witness : simplePerToken 5 0 = 0 ∧ simplePerToken 5 2 = 5 / 2 :=
  ⟨C10_per_token_guard.2.1 5, C10_per_token_guard.2.2 5 2 (by norm_num)⟩

theorem matchTail_nonneg (cs : List Char) (v : ℚ) (h : matchTail cs = some v) :
    0 ≤ v := by
  simp only [matchTail] at h
  repeat' split at h
  all_goals first
    | (rw [Option.some.injEq] at h; rw [← h]; exact groupVal_nonneg _ _)
    | exact absurd h (by simp)

theorem scanColon_nonneg (cs : List Char) :
    ∀ v : ℚ, scanColon cs = some v → 0 ≤ v := by
  induction cs with
  | nil => intro v h; exact absurd h (by simp [scanColon])
  | cons c rest ih =>
      intro v h
      rw [scanColon] at h
      split_ifs at h
      · split at h
        · rename_i w hw
          rw [Option.some.injEq] at h
          rw [← h]
          exact matchTail_nonneg rest w hw
        · exact ih v h
      · exact ih v h

theorem searchPower_nonneg (buf : List Char) :
    ∀ v : ℚ, searchPower buf = some v → 0 ≤ v := by
  induction buf with
  | nil => intro v h; exact absurd h (by simp [searchPower])
  | cons c rest ih =>
      intro v h
      rw [searchPower] at h
      split_ifs at h
      · split at h
        · rename_i w hw
          rw [Option.some.injEq] at h
          rw [← h]
          exact scanColon_nonneg _ w hw
        · exact ih v h
      · exact ih v h

/-- C9.  Every value the reader loop can push (any output of the regex
search over any buffer) is non-negative, and every string in the
language of the captured group `\d+\.?\d*` parses successfully to a
non-negative number. -/
theorem C9_readings_nonneg :
    (∀ (buf : List Char) (v : ℚ), searchPower buf = some v → 0 ≤ v) ∧
    (∀ s : List Char, groupMatches s = true →
        ∃ v, parseFloat s = some v ∧ 0 ≤ v) := by
  constructor
  · exact fun buf => searchPower_nonneg buf
  · intro s hm
    simp only [groupMatches, Bool.and_eq_true, Bool.or_eq_true, decide_eq_true_eq] at hm
    obtain ⟨h1, h2⟩ := hm
    rw [parseFloat]
    rw [if_neg h1]
    rcases h2 with h2 | ⟨h2a, h2b⟩
    · rw [h2]
      exact ⟨groupVal (s.span Char.isDigit).1 [], rfl, groupVal_nonneg _ _⟩
    · cases hds : (s.span Char.isDigit).2 with
      | nil => rw [hds] at h2a; exact absurd h2a (by simp)
      | cons a t =>
          rw [hds] at h2a h2b
          rw [List.head?_cons, Option.some.injEq] at h2a
          rw [List.tail_cons] at h2b
          subst h2a
          refine ⟨groupVal (s.span Char.isDigit).1 t, ?_, groupVal_nonneg _ _⟩
          show (if t.all Char.isDigit = true then
              some (groupVal (s.span Char.isDigit).1 t) else none)
            = some (groupVal (s.span Char.isDigit).1 t)
          rw [if_pos h2b]

/-- Witness for C9: the 5.25 W reading extracted from a concrete
buffer, and the group 5.25 parsed. -/
theorem C9_witness :
    searchPower ("Intel energy model derived package power: 5.25W\n".data)
        = some (groupVal ['5'] ['2', '5']) ∧
    (0 : ℚ) ≤ groupVal ['5'] ['2', '5'] :=
  ⟨rfl, C9_readings_nonneg.1 ("Intel energy model derived package power: 5.25W\n".data)
    (groupVal ['5'] ['2', '5']) rfl⟩

end Joulemeter
